import Mathlib

/-!
# Verification of the gather_cfp pipeline

A shallow embedding, in Lean 4, of the core of the `gather_cfp` repository:

* `src/gather_events.py` — listing-table extraction (`process_data_table`,
  `format_deadline`), the pagination loop of `main`, the detail-page
  scraper (`scrape_event_details`) and the detail-enrichment/output phase
  of `main`;
* `src/rate_events.py` — the CORE-ranking resolver (`get_core_ranking`),
  the conference-name key derivation (`extract_conference_name`), the
  ranking cache (`load_ranking_cache` / `store_ranking_cache`) and the
  enrichment loop of `enrich_conferences`.

The browser-facing side (Selenium element handles, BeautifulSoup nodes,
regular-expression probes over raw HTML, the JSON (de)serialiser and the
file system) is modelled by explicit data: a table is a list of rows of
cells, a fetched detail page is the outcome of the probes the Python code
runs on it, the persisted cache file is either absent, a well-formed
serialised mapping, or corrupt bytes, and a raised Python exception is an
`Except.error`.  Everything downstream of those inputs is translated
directly from the Python source.
-/

namespace GatherCfp

/-- Substring test on character lists: `pat` occurs inside `s`
(models Python's `in` operator on strings and BeautifulSoup's
`"Categories" in text` checks). -/
def listContainsSub (pat : List Char) : List Char → Bool
  | [] => pat.isEmpty
  | c :: rest => pat.isPrefixOf (c :: rest) || listContainsSub pat rest

/-- `containsSub pat s = true` iff `pat` occurs as a substring of `s`. -/
def containsSub (pat s : String) : Bool :=
  listContainsSub pat.toList s.toList

/-- Python-dict lookup on an association list (`d[k]` / `k in d`);
`none` models a missing key. -/
def dictGet? {α : Type} (m : List (String × α)) (k : String) : Option α :=
  match m with
  | [] => none
  | (k', v) :: rest => if k' = k then some v else dictGet? rest k

/-- Python-dict assignment `d[k] = v`: replace the value at the first
occurrence of `k`, or append the binding if `k` is absent (a Python dict
keeps the original insertion position on overwrite). -/
def dictSet {α : Type} (m : List (String × α)) (k : String) (v : α) :
    List (String × α) :=
  match m with
  | [] => [(k, v)]
  | (k', v') :: rest => if k' = k then (k', v) :: rest else (k', v') :: dictSet rest k v

/-! ## gather_events.py — listing-table extraction -/

/-- An `<a>` element inside a table cell: its text and its `href`. -/
structure Anchor where
  text : String
  href : String
deriving DecidableEq

/-- A `<td>` cell: its text, and its first `<a>` descendant when
`find_element(By.TAG_NAME, "a")` would succeed. -/
structure Cell where
  text : String
  anchor : Option Anchor
deriving DecidableEq

instance : Inhabited Cell := ⟨⟨"", none⟩⟩

/-- A `<tr>` row, as the list of its `<td>` cells. -/
abbrev Row := List Cell

/-- One extracted event record: the dictionary built by
`process_data_table` for one two-row pair. -/
structure EventData where
  event_name : String
  description : String
  link : String
  when_ : String
  where_ : String
  deadline : String
deriving DecidableEq

/-- The twelve month abbreviations accepted by `strptime`'s `%b`. -/
def MONTHS : List String :=
  ["jan", "feb", "mar", "apr", "may", "jun", "jul", "aug", "sep", "oct", "nov", "dec"]

/-- Day count of month `m` (1-based) in year `y`, Gregorian rule
(the validation `datetime.strptime` applies to `%b %d, %Y`). -/
def daysInMonth (m y : Nat) : Nat :=
  if m = 2 then
    if y % 4 = 0 ∧ (y % 100 ≠ 0 ∨ y % 400 = 0) then 29 else 28
  else if m = 4 ∨ m = 6 ∨ m = 9 ∨ m = 11 then 30
  else 31

/-- Zero-padded two-digit rendering used by `strftime`'s `%d`/`%m`/`%y`. -/
def pad2 (n : Nat) : String :=
  if n < 10 then "0" ++ toString n else toString n

/-- Models `datetime.strptime(s, '%b %d, %Y')`: parse `"Mon D, YYYY"`
(month abbreviation case-insensitive, day of 1–2 digits followed by a
comma, year of up to 4 digits, day validated against the month) into
`(day, month, year)`; `none` models the `ValueError` branch. -/
def parse_bdY (s : String) : Option (Nat × Nat × Nat) :=
  match s.splitOn " " with
  | [monTok, dayTok, yearTok] =>
    match (MONTHS.indexOf? monTok.toLower : Option Nat) with
    | none => none
    | some idx =>
      let m := idx + 1
      let dayDigits := dayTok.dropRight 1
      if dayTok.takeRight 1 = "," ∧ 1 ≤ dayDigits.length ∧ dayDigits.length ≤ 2
          ∧ 1 ≤ yearTok.length ∧ yearTok.length ≤ 4 then
        match dayDigits.toNat?, yearTok.toNat? with
        | some d, some y =>
          if 1 ≤ d ∧ d ≤ daysInMonth m y ∧ 1 ≤ y ∧ y ≤ 9999 then some (d, m, y)
          else none
        | _, _ => none
      else none
  | _ => none

/-- `format_deadline` from gather_events.py: keep `"N/A"` as is, strip a
trailing parenthetical, try to parse `'%b %d, %Y'` and reformat as
`dd/mm/yy`; on parse failure return the stripped string verbatim. -/
def format_deadline (deadline_str : String) : String :=
  if deadline_str = "N/A" then deadline_str
  else
    let s := ((deadline_str.splitOn "(").headD deadline_str).trim
    match parse_bdY s with
    | some (d, m, y) => pad2 d ++ "/" ++ pad2 m ++ "/" ++ pad2 (y % 100)
    | none => s

/-- The record built from the first row's first two cells (`cells1[0]`,
`cells1[1]`) and the optional second row of the pair: anchor text/href or
the cell text with an absent link, the trimmed description, and the
when/where/deadline triple when the second row exists and has at least 3
cells, else `"N/A"` markers. -/
def eventFields (c0 c1 : Cell) (row2? : Option Row) : EventData :=
  let nameLink : String × String :=
    match c0.anchor with
    | some a => (a.text.trim, a.href)
    | none => (c0.text.trim, "N/A")
  let whenWhereDeadline : String × String × String :=
    match row2? with
    | some (ca :: cb :: cc :: _) =>
      (ca.text.trim, cb.text.trim, format_deadline cc.text.trim)
    | some _ => ("N/A", "N/A", "N/A")
    | none => ("N/A", "N/A", "N/A")
  { event_name := nameLink.1
    description := c1.text.trim
    link := nameLink.2
    when_ := whenWhereDeadline.1
    where_ := whenWhereDeadline.2.1
    deadline := whenWhereDeadline.2.2 }

/-- One iteration of the extraction loop: the first row of the pair must
have at least 2 cells (`if len(cells1) < 2: continue`), otherwise the
record is built from it and the optional second row. -/
def mkRecord : Row → Option Row → Option EventData
  | c0 :: c1 :: _, row2? => some (eventFields c0 c1 row2?)
  | _, _ => none

/-- The `for i in range(1, len(rows), 2)` loop body over the data rows
(rows after the header): consume rows in pairs, the last pair possibly
missing its second row. -/
def processPairs : List Row → List EventData
  | [] => []
  | [r1] => (mkRecord r1 none).toList
  | r1 :: r2 :: rest => (mkRecord r1 (some r2)).toList ++ processPairs rest

/-- `process_data_table` from gather_events.py, applied to the rows of
the located table: fewer than 3 rows yields no events, otherwise the
header row is skipped and the remaining rows are processed in pairs. -/
def process_data_table (rows : List Row) : List EventData :=
  if rows.length < 3 then [] else processPairs rows.tail

/-- The rows of a list of well-formed two-row pairs, in document order. -/
def pairRows : List (Row × Row) → List Row
  | [] => []
  | (a, b) :: ps => a :: b :: pairRows ps

/-! ## gather_events.py — pagination loop of `main`

The site is modelled by the table rows each page shows (`site p` for page
number `p`, 1-based) and by whether `click_next_page` succeeds on page
`p` (`hasNext p`: a clickable "next" link is found, the click works and
the old page goes stale).  The loop of `main` is

    while True:
        page_count += 1
        events = process_data_table(driver)
        all_events.extend(events)
        if page_count >= max_pages or not click_next_page(driver):
            break

`paginateLoop` returns the accumulated events, the final `page_count`
(the number of pages visited and extracted) and the list of page numbers
on which `click_next_page` was invoked — the Python `or` is
short-circuiting, so no click is attempted on a page that already meets
the ceiling. -/

def paginateLoop (site : Nat → List Row) (hasNext : Nat → Bool) (max_pages : Nat)
    (page_count : Nat) : List EventData × Nat × List Nat :=
  let pc := page_count + 1
  let evs := process_data_table (site pc)
  if max_pages ≤ pc then (evs, pc, [])
  else if hasNext pc then
    let r := paginateLoop site hasNext max_pages pc
    (evs ++ r.1, r.2.1, pc :: r.2.2)
  else (evs, pc, [pc])
termination_by max_pages - page_count
decreasing_by omega

/-- The pagination phase of `main`: start with `page_count = 0`. -/
def gather_pages (site : Nat → List Row) (hasNext : Nat → Bool) (max_pages : Nat) :
    List EventData × Nat × List Nat :=
  paginateLoop site hasNext max_pages 0

/-- `[s, s+1, ..., s+n-1]`. -/
def natRange (s : Nat) : Nat → List Nat
  | 0 => []
  | n + 1 => s :: natRange (s + 1) n

/-- Events extracted from pages `s, s+1, ..., s+n-1`, concatenated in
visit order. -/
def extractAll (site : Nat → List Row) (s : Nat) : Nat → List EventData
  | 0 => []
  | n + 1 => process_data_table (site s) ++ extractAll site (s + 1) n

/-! ## gather_events.py — `scrape_event_details`

A fetched detail page is modelled by the outcome of the probes the
Python code runs on it: the `<title>` tag, the description `<meta>`, the
four regular-expression searches over the raw markup, the workshop text
search, the `Link:` text-node walk and the first `<h5>` heading. -/

/-- The value stored under one key of the details dictionary. -/
inductive AttrVal where
  | str (s : String)
  | boolean (b : Bool)
  | nat (n : Nat)
  | strs (l : List String)
deriving DecidableEq

/-- Outcome of the website-link walk: the text node containing `"Link:"`
may be absent, may have no ancestor `<td>`, the `<td>` may hold no
`<a href=...>`, or the `href` is found. -/
inductive WebsiteProbe where
  | noLinkText
  | noParentTd
  | noAnchor
  | anchor (href : String)
deriving DecidableEq

/-- What the Python probes observe on a successfully fetched detail
page.  `title_tag` is the `<title>` element's text when present
(`driver_title` is the fallback `driver.title`); `meta_content` is the
`content` attribute of `<meta name="description">` when the tag and the
attribute exist; the four `_match` fields are the first capture group of
the corresponding `re.search` over the raw HTML (for `Minimum Pages` the
captured digits, as the number `int()` returns); `has_workshop_text`
says whether any text node matches `workshop` case-insensitively;
`categories_h5` is the first `<h5>` element's text together with the raw
texts of its `<a>` descendants. -/
structure PageData where
  title_tag : Option String
  driver_title : String
  meta_content : Option String
  deadline_match : Option String
  review_match : Option String
  rank_match : Option String
  has_workshop_text : Bool
  pages_match : Option Nat
  website_probe : WebsiteProbe
  categories_h5 : Option (String × List String)
deriving DecidableEq

/-- Outcome of navigating to a detail page: an exception (navigation or
wait failure, carrying `str(e)`) or the page's probe data. -/
inductive DetailPage where
  | failure (msg : String)
  | page (d : PageData)
deriving DecidableEq

/-- `scrape_event_details` from gather_events.py: build the details
dictionary key by key; an exception yields only the `error` key, since
`details` starts empty and the `except` branch records `str(e)`. -/
def scrape_event_details : DetailPage → List (String × AttrVal)
  | .failure msg => [("error", .str msg)]
  | .page d =>
    let page_title :=
      match d.title_tag with
      | some t => t.trim
      | none => d.driver_title
    let meta_description :=
      match d.meta_content with
      | some c => if c = "" then "N/A" else c.trim
      | none => "N/A"
    let detailed_deadline := (d.deadline_match.map String.trim).getD "N/A"
    let review_time := (d.review_match.map String.trim).getD "N/A"
    let conference_rank := (d.rank_match.map String.trim).getD "N/A"
    let minimum_pages : AttrVal :=
      match d.pages_match with
      | some n => .nat n
      | none => .str "N/A"
    let website_link :=
      match d.website_probe with
      | .anchor href => href
      | _ => "N/A"
    let categories : List String :=
      match d.categories_h5 with
      | some (txt, anchors) =>
        if containsSub "Categories" txt then
          (anchors.filter (fun a => !containsSub "Categories" a)).map String.trim
        else []
      | none => []
    [("page_title", .str page_title),
     ("meta_description", .str meta_description),
     ("detailed_deadline", .str detailed_deadline),
     ("review_time", .str review_time),
     ("conference_rank", .str conference_rank),
     ("is_workshop", .boolean d.has_workshop_text),
     ("minimum_pages", minimum_pages),
     ("website_link", .str website_link),
     ("categories", .strs categories)]

/-! ## gather_events.py — detail-enrichment and output phase of `main` -/

/-- The event record as the dictionary `process_data_table` builds, in
insertion order. -/
def eventToDict (e : EventData) : List (String × AttrVal) :=
  [("event_name", .str e.event_name),
   ("description", .str e.description),
   ("link", .str e.link),
   ("when", .str e.when_),
   ("where", .str e.where_),
   ("deadline", .str e.deadline)]

/-- Python's `{**a, **b}`: the keys of `a` in order, with `b`'s value
where `b` also binds the key, followed by the keys only `b` has, in
`b`'s order. -/
def dictMerge (a b : List (String × AttrVal)) : List (String × AttrVal) :=
  a.map (fun p => match dictGet? b p.1 with
    | some v => (p.1, v)
    | none => p)
  ++ b.filter (fun q => (dictGet? a q.1).isNone)

/-- The loop of `main` after pagination: a record is enriched and kept
only when `event["link"]` is truthy and not `"N/A"`; `fetch` models
navigating the browser to the record's detail link. -/
def detailsLoop (fetch : String → DetailPage) : List EventData → List (List (String × AttrVal))
  | [] => []
  | e :: rest =>
    if e.link ≠ "" ∧ e.link ≠ "N/A" then
      dictMerge (eventToDict e) (scrape_event_details (fetch e.link)) :: detailsLoop fetch rest
    else detailsLoop fetch rest

/-! ## rate_events.py — `get_core_ranking`

The CORE portal interaction is modelled by its observable outcome: any
exception while searching or waiting (`PortalOutcome.failure`, covering
transport and timeout errors too), or the located results table with its
full text and its `tr.evenrow, tr.oddrow` rows.  A row carries the texts
of its `./td[i]` children and, separately, the `href` of `.//td[6]//a`
when that anchor exists. -/

/-- One result row of the CORE search table. -/
structure CoreRow where
  tds : List String
  dblpHref : Option String
deriving DecidableEq

/-- Outcome of driving the CORE portal search for one conference name. -/
inductive PortalOutcome where
  | failure
  | table (text : String) (rows : List CoreRow)
deriving DecidableEq

/-- The ranking lookup result dictionary. -/
structure RankingRecord where
  title : String
  acronym : String
  source : String
  rank : String
  note : String
  dblp_link : String
  primary_for : String
  comments : String
  average_rating : String
  found : Bool
deriving DecidableEq

/-- The sentinel record `get_core_ranking` initialises `result` with. -/
def coreDefault : RankingRecord :=
  { title := "N/A"
    acronym := "N/A"
    source := "N/A"
    rank := "Unranked"
    note := "N/A"
    dblp_link := "N/A"
    primary_for := "N/A"
    comments := "N/A"
    average_rating := "N/A"
    found := false }

/-- `get_core_ranking` from rate_events.py: on `"0 Results found."` in
the table text, on an empty row list, or on any exception (including a
row too short for the `./td[1]`–`./td[9]` accesses, which raises before
`result.update` runs) the untouched sentinel record is returned;
otherwise the first row populates every field and sets `found`, with the
dblp link filled by its own guarded lookup. -/
def get_core_ranking (conference_name : String) (portal : PortalOutcome) : RankingRecord :=
  match portal with
  | .failure => coreDefault
  | .table text rows =>
    if containsSub "0 Results found." text then coreDefault
    else
      match rows with
      | [] => coreDefault
      | first :: _ =>
        if 9 ≤ first.tds.length then
          { title := ((first.tds.getD 0 "").trim)
            acronym := ((first.tds.getD 1 "").trim)
            source := ((first.tds.getD 2 "").trim)
            rank := ((first.tds.getD 3 "").trim)
            note := ((first.tds.getD 4 "").trim)
            dblp_link := first.dblpHref.getD "N/A"
            primary_for := ((first.tds.getD 6 "").trim)
            comments := ((first.tds.getD 7 "").trim)
            average_rating := ((first.tds.getD 8 "").trim)
            found := true }
        else coreDefault

/-! ## rate_events.py — ranking cache -/

/-- A persisted ranking-cache mapping: conference key to record. -/
abbrev RankingCache := List (String × RankingRecord)

/-- Content of the cache file: a well-formed serialised mapping (what
`json.dump` of a cache writes), or bytes `json.load` cannot parse. -/
inductive StoreContent where
  | mapping (m : RankingCache)
  | corrupt
deriving DecidableEq

/-- `load_ranking_cache` from rate_events.py: a missing file yields the
empty mapping; an existing file is handed to `json.load`, whose failure
on corrupt content propagates as an exception (`Except.error`). -/
def load_ranking_cache (file : Option StoreContent) : Except String RankingCache :=
  match file with
  | none => .ok []
  | some (.mapping m) => .ok m
  | some .corrupt => .error "JSONDecodeError"

/-- `store_ranking_cache` from rate_events.py: serialise the mapping and
overwrite the cache file with it. -/
def store_ranking_cache (cache : RankingCache) : Option StoreContent :=
  some (.mapping cache)

/-- The cache together with its backing file. -/
structure CacheStore where
  cache : RankingCache
  file : Option StoreContent
deriving DecidableEq

/-- The spec's `put(k, r)` as the code performs it:
`ranking_cache[conf_name] = core_data` followed immediately by
`store_ranking_cache(ranking_cache)`. -/
def put (st : CacheStore) (k : String) (r : RankingRecord) : CacheStore :=
  let cache' := dictSet st.cache k r
  { cache := cache', file := store_ranking_cache cache' }

/-- A store with no binding and no file yet. -/
def emptyStore : CacheStore :=
  { cache := [], file := none }

/-! ## rate_events.py — `extract_conference_name` and the enrichment loop -/

/-- One conference dictionary, reduced to the two fields the key
derivation reads; a missing key is the empty string, matching
`conf.get("page_title", "")` and `conf.get("event_name", "")`. -/
structure Conf where
  page_title : String
  event_name : String
deriving DecidableEq

/-- `extract_conference_name` from rate_events.py: first token of a
multi-token `page_title`, the whole trimmed `page_title` if it is a
single token, else the first token of `event_name`. -/
def extract_conference_name (conf : Conf) : String :=
  let title := conf.page_title
  if title ≠ "" then
    let parts := title.splitOn " "
    if parts.length > 1 then (parts.headD "").trim else title.trim
  else (conf.event_name.splitOn " ").headD ""

/-- Enrichment-loop state: the in-memory cache, the backing file, and
the conference names passed to `get_core_ranking` so far (the external
calls, in order). -/
structure EnrichState where
  cache : RankingCache
  file : Option StoreContent
  calls : List String
deriving DecidableEq

/-- One iteration of the loop in `enrich_conferences`: a cached key is
served from the cache with no external call; otherwise the resolver
(`get_core_ranking` against the live portal, modelled by `resolver`) is
invoked, the result attached and inserted, and the cache stored at
once. -/
def enrichStep (resolver : String → RankingRecord) (st : EnrichState) (conf : Conf) :
    EnrichState × RankingRecord :=
  let conf_name := extract_conference_name conf
  match dictGet? st.cache conf_name with
  | some r => (st, r)
  | none =>
    let core_data := resolver conf_name
    let cache' := dictSet st.cache conf_name core_data
    ({ cache := cache', file := store_ranking_cache cache',
       calls := st.calls ++ [conf_name] }, core_data)

/-- The `for conf in conferences` loop of `enrich_conferences`,
returning the final state and each conference with its attached
`core_data`. -/
def enrichLoop (resolver : String → RankingRecord) :
    EnrichState → List Conf → EnrichState × List (Conf × RankingRecord)
  | st, [] => (st, [])
  | st, c :: cs =>
    let r := enrichStep resolver st c
    let rest := enrichLoop resolver r.1 cs
    (rest.1, (c, r.2) :: rest.2)

/-- `enrich_conferences` from rate_events.py, after its
`load_ranking_cache() or {}` step: `loaded` is the mapping that load
returned and `file0` the cache file it was read from; the loop starts
with no external call made yet. -/
def enrich_conferences (resolver : String → RankingRecord) (loaded : RankingCache)
    (file0 : Option StoreContent) (confs : List Conf) :
    EnrichState × List (Conf × RankingRecord) :=
  enrichLoop resolver { cache := loaded, file := file0, calls := [] } confs

end GatherCfp

open GatherCfp

/-! ## Association-list (Python dict) lemmas -/

theorem dictGet?_dictSet {α : Type} (m : List (String × α)) (k : String) (v : α) :
    dictGet? (dictSet m k v) k = some v := by
  induction m with
  | nil => simp [dictSet, dictGet?]
  | cons p rest ih =>
    obtain ⟨k', v'⟩ := p
    by_cases h : k' = k
    · simp [dictSet, dictGet?, h]
    · simp [dictSet, dictGet?, h, ih]

theorem dictGet?_dictSet_ne {α : Type} (m : List (String × α)) (k k' : String) (v : α)
    (h : k' ≠ k) : dictGet? (dictSet m k v) k' = dictGet? m k' := by
  induction m with
  | nil =>
    have hne : ¬ k = k' := fun hh => h hh.symm
    simp [dictSet, dictGet?, hne]
  | cons p rest ih =>
    obtain ⟨k₀, v₀⟩ := p
    have hkk' : ¬ k = k' := fun hh => h hh.symm
    by_cases h0 : k₀ = k
    · simp [dictSet, dictGet?, h0, hkk']
    · by_cases h1 : k₀ = k'
      · subst h1
        simp [dictSet, dictGet?, h0]
      · simp [dictSet, dictGet?, h0, h1, ih]

/-! ## Listing-table extraction lemmas -/

theorem pairRows_length (ps : List (Row × Row)) :
    (pairRows ps).length = 2 * ps.length := by
  induction ps with
  | nil => rfl
  | cons p rest ih =>
    obtain ⟨a, b⟩ := p
    simp [pairRows, ih]
    omega

theorem processPairs_pairRows_append (ps : List (Row × Row)) (l : List Row) :
    processPairs (pairRows ps ++ l) = processPairs (pairRows ps) ++ processPairs l := by
  induction ps with
  | nil => rfl
  | cons p rest ih =>
    obtain ⟨a, b⟩ := p
    simp [pairRows, processPairs, ih]

theorem processPairs_pairRows (ps : List (Row × Row))
    (h : ∀ p ∈ ps, 2 ≤ p.1.length) :
    processPairs (pairRows ps)
      = ps.map (fun p => eventFields (p.1.headD default) (p.1.tail.headD default) (some p.2)) := by
  induction ps with
  | nil => rfl
  | cons p rest ih =>
    obtain ⟨a, b⟩ := p
    have ha : 2 ≤ a.length := h (a, b) (List.mem_cons_self _ _)
    match a, ha with
    | c0 :: c1 :: r, _ =>
      have hrest : ∀ p ∈ rest, 2 ≤ p.1.length := fun q hq => h q (List.mem_cons_of_mem _ hq)
      simp [pairRows, processPairs, mkRecord, ih hrest]

/-- C2: over a located table whose rows are a header followed only by
well-formed two-row pairs (each pair's first row having at least 2
cells), `process_data_table` returns one record per consecutive pair in
document order, hence exactly `(rowCount - 1) / 2` records. -/
theorem extractor_pair_count (hdr : Row) (ps : List (Row × Row))
    (h : ∀ p ∈ ps, 2 ≤ p.1.length) :
    process_data_table (hdr :: pairRows ps)
      = ps.map (fun p => eventFields (p.1.headD default) (p.1.tail.headD default) (some p.2))
    ∧ (process_data_table (hdr :: pairRows ps)).length
      = ((hdr :: pairRows ps).length - 1) / 2 := by
  have hlen : (hdr :: pairRows ps).length = 1 + 2 * ps.length := by
    simp [pairRows_length]
    omega
  cases ps with
  | nil =>
    constructor
    · rfl
    · simp [process_data_table, pairRows]
  | cons p rest =>
    have h3 : ¬ ((hdr :: pairRows (p :: rest)).length < 3) := by
      rw [hlen]
      simp
      omega
    have hmap := processPairs_pairRows (p :: rest) h
    constructor
    · rw [process_data_table, if_neg h3]
      exact hmap
    · rw [process_data_table, if_neg h3, List.tail_cons, hmap, hlen]
      simp

/-- Witness for `extractor_pair_count`: a header row plus two
well-formed pairs (5 rows) yields exactly `(5 - 1) / 2 = 2` records. -/
theorem extractor_pair_count_witness :
    (process_data_table [[⟨"Event", none⟩],
        [⟨"n1", some ⟨"A", "http://a"⟩⟩, ⟨"d1", none⟩],
        [⟨"w1", none⟩, ⟨"p1", none⟩, ⟨"Mar 5, 2025", none⟩],
        [⟨"n2", none⟩, ⟨"d2", none⟩],
        [⟨"w2", none⟩, ⟨"p2", none⟩, ⟨"t2", none⟩]]).length
      = (5 - 1) / 2 :=
  (extractor_pair_count [⟨"Event", none⟩]
      [([⟨"n1", some ⟨"A", "http://a"⟩⟩, ⟨"d1", none⟩],
        [⟨"w1", none⟩, ⟨"p1", none⟩, ⟨"Mar 5, 2025", none⟩]),
       ([⟨"n2", none⟩, ⟨"d2", none⟩],
        [⟨"w2", none⟩, ⟨"p2", none⟩, ⟨"t2", none⟩])]
      (by decide)).2

/-- C3 counterexample: in a located 3-row table whose single pair's
first row has only 1 cell (fewer than 3 cells in that row, as the claim
allows), `process_data_table` produces no record at all for the pair —
the loop hits `if len(cells1) < 2: continue` — contradicting the claim
that a record with absent-marker fields is still produced. -/
theorem extractor_one_cell_pair_cx :
    process_data_table [[⟨"Event", none⟩],
        [⟨"lonely", none⟩],
        [⟨"when", none⟩, ⟨"where", none⟩, ⟨"deadline", none⟩]] = [] := rfl

/-- Fields of a record whose second row is missing or has fewer than 3
cells are the `"N/A"` markers. -/
theorem eventFields_short_row2 (c0 c1 : Cell) (row2? : Option Row)
    (h : row2? = none ∨ ∃ r2, row2? = some r2 ∧ r2.length < 3) :
    (eventFields c0 c1 row2?).when_ = "N/A"
    ∧ (eventFields c0 c1 row2?).where_ = "N/A"
    ∧ (eventFields c0 c1 row2?).deadline = "N/A" := by
  rcases h with h | ⟨r2, rfl, hlen⟩
  · subst h
    exact ⟨rfl, rfl, rfl⟩
  · match r2, hlen with
    | [], _ => exact ⟨rfl, rfl, rfl⟩
    | [a], _ => exact ⟨rfl, rfl, rfl⟩
    | [a, b], _ => exact ⟨rfl, rfl, rfl⟩
    | a :: b :: c :: t, h => simp at h; omega

/-- C3 (amended): a pair whose FIRST row has at least 2 cells still
yields a record when its second row is missing or has fewer than 3
cells, with `when`/`where`/`deadline` set to the `"N/A"` marker —
provided the table passes the 3-row minimum (so a lone dangling first
row needs at least one pair before it).  A pair whose first row has
fewer than 2 cells yields no record, but extraction of the remaining
rows continues rather than aborting the page. -/
theorem extractor_degraded_pair (hdr : Row) (ps : List (Row × Row)) (c0 c1 : Cell)
    (rest : List Cell) (tail2 : List Row)
    (hdeg : (tail2 = [] ∧ ps ≠ []) ∨ ∃ r2, tail2 = [r2] ∧ r2.length < 3) :
    process_data_table (hdr :: (pairRows ps ++ (c0 :: c1 :: rest) :: tail2))
      = processPairs (pairRows ps) ++ [eventFields c0 c1 tail2.head?]
    ∧ (eventFields c0 c1 tail2.head?).when_ = "N/A"
    ∧ (eventFields c0 c1 tail2.head?).where_ = "N/A"
    ∧ (eventFields c0 c1 tail2.head?).deadline = "N/A"
    ∧ ∀ (bad r2 : Row) (more : List Row), bad.length < 2 →
        processPairs (bad :: r2 :: more) = processPairs more := by
  have hskip : ∀ (bad r2 : Row) (more : List Row), bad.length < 2 →
      processPairs (bad :: r2 :: more) = processPairs more := by
    intro bad r2 more hb
    match bad, hb with
    | [], _ => simp [processPairs, mkRecord]
    | [c], _ => simp [processPairs, mkRecord]
  have hna : (eventFields c0 c1 tail2.head?).when_ = "N/A"
      ∧ (eventFields c0 c1 tail2.head?).where_ = "N/A"
      ∧ (eventFields c0 c1 tail2.head?).deadline = "N/A" := by
    apply eventFields_short_row2
    rcases hdeg with ⟨h0, _⟩ | ⟨r2, h0, hlen⟩
    · exact Or.inl (by rw [h0]; rfl)
    · exact Or.inr ⟨r2, by rw [h0]; rfl, hlen⟩
  refine ⟨?_, hna.1, hna.2.1, hna.2.2, hskip⟩
  rcases hdeg with ⟨h0, hps⟩ | ⟨r2, h0, hlen⟩
  · subst h0
    obtain ⟨q, ps', rfl⟩ : ∃ q ps', ps = q :: ps' := by
      cases ps with
      | nil => exact absurd rfl hps
      | cons q ps' => exact ⟨q, ps', rfl⟩
    have h3 : ¬ ((hdr :: (pairRows (q :: ps') ++ [c0 :: c1 :: rest])).length < 3) := by
      obtain ⟨a, b⟩ := q
      simp [pairRows]
    rw [process_data_table, if_neg h3, List.tail_cons, processPairs_pairRows_append]
    rfl
  · subst h0
    have h3 : ¬ ((hdr :: (pairRows ps ++ [c0 :: c1 :: rest, r2])).length < 3) := by
      simp
    rw [process_data_table, if_neg h3, List.tail_cons, processPairs_pairRows_append]
    rfl

/-- Witness for `extractor_degraded_pair`: a complete pair followed by a
dangling first row with 2 cells yields the complete record and then a
record with all of `when`/`where`/`deadline` at `"N/A"`. -/
theorem extractor_degraded_pair_witness :
    process_data_table [[⟨"Event", none⟩],
        [⟨"n1", none⟩, ⟨"d1", none⟩],
        [⟨"w1", none⟩, ⟨"p1", none⟩, ⟨"t1", none⟩],
        [⟨"n2", none⟩, ⟨"d2", none⟩]]
      = processPairs (pairRows [([⟨"n1", none⟩, ⟨"d1", none⟩],
          [⟨"w1", none⟩, ⟨"p1", none⟩, ⟨"t1", none⟩])])
        ++ [eventFields ⟨"n2", none⟩ ⟨"d2", none⟩ none]
    ∧ (eventFields ⟨"n2", none⟩ ⟨"d2", none⟩ none).deadline = "N/A" :=
  ⟨(extractor_degraded_pair [⟨"Event", none⟩]
      [([⟨"n1", none⟩, ⟨"d1", none⟩], [⟨"w1", none⟩, ⟨"p1", none⟩, ⟨"t1", none⟩])]
      ⟨"n2", none⟩ ⟨"d2", none⟩ [] []
      (Or.inl ⟨rfl, by decide⟩)).1,
   (extractor_degraded_pair [⟨"Event", none⟩]
      [([⟨"n1", none⟩, ⟨"d1", none⟩], [⟨"w1", none⟩, ⟨"p1", none⟩, ⟨"t1", none⟩])]
      ⟨"n2", none⟩ ⟨"d2", none⟩ [] []
      (Or.inl ⟨rfl, by decide⟩)).2.2.2.1⟩

/-! ## Pagination lemmas -/

theorem paginateLoop_all_next (site : Nat → List Row) (hasNext : Nat → Bool)
    (max_pages : Nat) :
    ∀ (k page_count : Nat), page_count + k = max_pages → 1 ≤ k →
      (∀ p, page_count < p → p < max_pages → hasNext p = true) →
      paginateLoop site hasNext max_pages page_count
        = (extractAll site (page_count + 1) k, max_pages, natRange (page_count + 1) (k - 1)) := by
  intro k
  induction k with
  | zero =>
    intro pc _ h1 _
    exact absurd h1 (by omega)
  | succ k ih =>
    intro pc hsum _ hnext
    rw [paginateLoop]
    by_cases hk : k = 0
    · subst hk
      rw [if_pos (by omega : max_pages ≤ pc + 1)]
      have hmax : max_pages = pc + 1 := by omega
      simp [extractAll, natRange, hmax]
    · have hlt : pc + 1 < max_pages := by omega
      rw [if_neg (by omega : ¬ max_pages ≤ pc + 1),
        hnext (pc + 1) (by omega) hlt]
      simp only [if_true]
      rw [ih (pc + 1) (by omega) (by omega) (fun p hp1 hp2 => hnext p (by omega) hp2)]
      match k, hk with
      | k' + 1, _ => simp [extractAll, natRange]

/-- C1 (amended): over a source whose pages all expose a valid "next"
link, with a page ceiling `C` satisfying `1 ≤ C < N`, the pagination
loop of `main` visits and extracts exactly pages `1..C` and attempts the
next-link click only on pages `1..C-1` — the ceiling test runs before
the click, so reaching the ceiling stops pagination even though page
`C+1` is reachable.  (For `C = 0` the loop still visits one page, since
the ceiling is only tested after the first extraction.) -/
theorem pagination_ceiling (site : Nat → List Row) (hasNext : Nat → Bool)
    (C N : Nat) (h1 : 1 ≤ C) (h2 : C < N)
    (hn : ∀ p, 1 ≤ p → p ≤ N → hasNext p = true) :
    (gather_pages site hasNext C).2.1 = C
    ∧ (gather_pages site hasNext C).1 = extractAll site 1 C
    ∧ (gather_pages site hasNext C).2.2 = natRange 1 (C - 1) := by
  have h := paginateLoop_all_next site hasNext C C 0 (by omega) h1
    (fun p hp1 hp2 => hn p (by omega) (by omega))
  rw [gather_pages, h]
  exact ⟨rfl, rfl, rfl⟩

/-- Witness for `pagination_ceiling`: ceiling 2 on a 3-page site with
"next" everywhere visits exactly pages 1 and 2 and clicks only on
page 1. -/
theorem pagination_ceiling_witness :
    (gather_pages (fun _ => []) (fun _ => true) 2).2.1 = 2
    ∧ (gather_pages (fun _ => []) (fun _ => true) 2).1 = extractAll (fun _ => []) 1 2
    ∧ (gather_pages (fun _ => []) (fun _ => true) 2).2.2 = natRange 1 1 :=
  pagination_ceiling (fun _ => []) (fun _ => true) 2 3 (by decide) (by decide)
    (fun _ _ _ => rfl)

/-- C1 counterexample: with a configured ceiling of `C = 0` (and a
source of `N = 1 > C` pages, every one exposing a "next" link) the loop
still visits one page, not `C = 0`: `page_count` is incremented and the
page extracted before the ceiling is ever compared. -/
theorem pagination_ceiling_zero_cx :
    (gather_pages (fun _ => []) (fun _ => true) 0).2.1 = 1 ∧ (1 : Nat) ≠ 0 := by
  constructor
  · rw [gather_pages, paginateLoop]
    simp
  · decide

/-! ## Ranking-cache lemmas -/

/-- C4 counterexample: on an existing cache file with corrupt content,
`load_ranking_cache` hands the file straight to `json.load` with no
exception handler, so the decode error propagates — the function does
not return the empty mapping. -/
theorem load_cache_corrupt_cx :
    load_ranking_cache (some StoreContent.corrupt) = Except.error "JSONDecodeError"
    ∧ load_ranking_cache (some StoreContent.corrupt) ≠ Except.ok [] :=
  ⟨rfl, by simp [load_ranking_cache]⟩

/-- C4 (amended): `load_ranking_cache` returns the empty mapping when
the store file is absent and the stored mapping when it is readable, but
on an existing file with corrupt (undeserialisable) content the
deserialisation error propagates instead of yielding an empty mapping. -/
theorem load_cache_total_behaviour (m : RankingCache) :
    load_ranking_cache none = Except.ok []
    ∧ load_ranking_cache (some (.mapping m)) = Except.ok m
    ∧ load_ranking_cache (some .corrupt) = Except.error "JSONDecodeError" :=
  ⟨rfl, rfl, rfl⟩

/-- C5: `put(k, r)` — the dict assignment followed by the immediate
`store_ranking_cache` flush — followed by `load_ranking_cache` in a
fresh instance yields a mapping binding `k` to `r`. -/
theorem cache_round_trip (st : CacheStore) (k : String) (r : RankingRecord) :
    ∃ m, load_ranking_cache (put st k r).file = Except.ok m
      ∧ dictGet? m k = some r :=
  ⟨dictSet st.cache k r, rfl, dictGet?_dictSet _ _ _⟩

/-- C6 counterexample: two sequential `put` calls with the same key and
distinct records leave the SECOND record in place — the dict assignment
in the code overwrites, so first-write-wins fails for raw `put`. -/
theorem put_overwrite_cx :
    dictGet? (put (put emptyStore "ICSE"
        { coreDefault with rank := "A", found := true }) "ICSE" coreDefault).cache "ICSE"
      = some coreDefault
    ∧ coreDefault ≠ { coreDefault with rank := "A", found := true } := by
  refine ⟨?_, by decide⟩
  rfl

/-! ## Enrichment-loop lemmas -/

theorem enrichLoop_invariant (resolver : String → RankingRecord) (confs : List Conf) :
    ∀ st : EnrichState,
      ∃ newCalls : List String,
        (enrichLoop resolver st confs).1.calls = st.calls ++ newCalls
        ∧ newCalls.Nodup
        ∧ (∀ k ∈ newCalls, dictGet? st.cache k = none)
        ∧ (∀ k ∈ newCalls, k ∈ confs.map extract_conference_name)
        ∧ (∀ k v, dictGet? st.cache k = some v →
            dictGet? (enrichLoop resolver st confs).1.cache k = some v) := by
  induction confs with
  | nil =>
    intro st
    refine ⟨[], by simp [enrichLoop], List.nodup_nil, by simp, by simp, ?_⟩
    intro k v h
    simpa [enrichLoop] using h
  | cons c cs ih =>
    intro st
    cases hstep : dictGet? st.cache (extract_conference_name c) with
    | some r =>
      obtain ⟨nc, h1, h2, h3, h4, h5⟩ := ih st
      have hloop : (enrichLoop resolver st (c :: cs)).1 = (enrichLoop resolver st cs).1 := by
        simp [enrichLoop, enrichStep, hstep]
      refine ⟨nc, by rw [hloop]; exact h1, h2, h3, ?_, ?_⟩
      · intro k hk
        exact List.mem_cons_of_mem _ (h4 k hk)
      · intro k v h
        rw [hloop]
        exact h5 k v h
    | none =>
      have hloop : (enrichLoop resolver st (c :: cs)).1
          = (enrichLoop resolver
              { cache := dictSet st.cache (extract_conference_name c)
                  (resolver (extract_conference_name c)),
                file := store_ranking_cache (dictSet st.cache (extract_conference_name c)
                  (resolver (extract_conference_name c))),
                calls := st.calls ++ [extract_conference_name c] } cs).1 := by
        simp [enrichLoop, enrichStep, hstep]
      obtain ⟨nc, h1, h2, h3, h4, h5⟩ := ih
        { cache := dictSet st.cache (extract_conference_name c)
            (resolver (extract_conference_name c)),
          file := store_ranking_cache (dictSet st.cache (extract_conference_name c)
            (resolver (extract_conference_name c))),
          calls := st.calls ++ [extract_conference_name c] }
      refine ⟨extract_conference_name c :: nc, ?_, ?_, ?_, ?_, ?_⟩
      · rw [hloop, h1]
        simp
      · refine List.nodup_cons.mpr ⟨?_, h2⟩
        intro hmem
        have := h3 _ hmem
        rw [dictGet?_dictSet] at this
        exact Option.noConfusion this
      · intro k hk
        rcases List.mem_cons.mp hk with rfl | hk'
        · exact hstep
        · have := h3 k hk'
          by_cases hkc : k = extract_conference_name c
          · subst hkc
            exact hstep
          · rw [dictGet?_dictSet_ne _ _ _ _ hkc] at this
            exact this
      · intro k hk
        rcases List.mem_cons.mp hk with rfl | hk'
        · exact List.mem_cons_self _ _
        · exact List.mem_cons_of_mem _ (h4 k hk')
      · intro k v h
        rw [hloop]
        apply h5
        have hkc : k ≠ extract_conference_name c := by
          intro hkc
          subst hkc
          rw [hstep] at h
          exact Option.noConfusion h
        rw [dictGet?_dictSet_ne _ _ _ _ hkc]
        exact h

/-- C6 (amended): raw `put` overwrites (the dict assignment makes the
second of two sequential `put` calls with the same key win), but at the
level the code relies on — the enrichment loop — a key already bound in
the cache is never overwritten: the loop only resolves and inserts keys
not present, so an existing binding survives the whole run unchanged. -/
theorem enrich_loop_first_write_wins (resolver : String → RankingRecord)
    (loaded : RankingCache) (file0 : Option StoreContent) (confs : List Conf)
    (k : String) (v : RankingRecord) (h : dictGet? loaded k = some v) :
    dictGet? (enrich_conferences resolver loaded file0 confs).1.cache k = some v := by
  obtain ⟨nc, _, _, _, _, h5⟩ := enrichLoop_invariant resolver confs
    { cache := loaded, file := file0, calls := [] }
  exact h5 k v h

/-- Witness for `enrich_loop_first_write_wins`: a binding present in the
loaded cache is still there after a run that meets the same key. -/
theorem enrich_loop_first_write_wins_witness :
    dictGet? (enrich_conferences (fun _ => coreDefault) [("AAAI", coreDefault)] none
        [⟨"AAAI 2025", ""⟩]).1.cache "AAAI" = some coreDefault :=
  enrich_loop_first_write_wins (fun _ => coreDefault) [("AAAI", coreDefault)] none
    [⟨"AAAI 2025", ""⟩] "AAAI" coreDefault (by decide)

/-- C7: within one run, the enrichment loop invokes the external
resolver at most once per distinct conference-name key: the recorded
call sequence is duplicate-free, every called key was absent from the
loaded cache (cached keys are served with zero external calls) and comes
from the input records, so the call count is at most the number of
distinct keys of the run. -/
theorem enrich_unique_external_calls (resolver : String → RankingRecord)
    (loaded : RankingCache) (file0 : Option StoreContent) (confs : List Conf) :
    (enrich_conferences resolver loaded file0 confs).1.calls.Nodup
    ∧ ((enrich_conferences resolver loaded file0 confs).1.calls.all
        (fun k => (dictGet? loaded k).isNone
          && (confs.map extract_conference_name).contains k)) = true
    ∧ (enrich_conferences resolver loaded file0 confs).1.calls.length
      ≤ (confs.map extract_conference_name).dedup.length := by
  obtain ⟨nc, h1, h2, h3, h4, _⟩ := enrichLoop_invariant resolver confs
    { cache := loaded, file := file0, calls := [] }
  have hcalls : (enrich_conferences resolver loaded file0 confs).1.calls = nc := by
    rw [enrich_conferences]
    simpa using h1
  refine ⟨?_, ?_, ?_⟩
  · rw [hcalls]
    exact h2
  · rw [hcalls]
    apply List.all_eq_true.mpr
    intro k hk
    rw [Bool.and_eq_true]
    constructor
    · simp [h3 k hk]
    · simpa using h4 k hk
  · rw [hcalls]
    have hsub : nc ⊆ (confs.map extract_conference_name).dedup :=
      fun x hx => List.mem_dedup.mpr (h4 x hx)
    exact (h2.subperm hsub).length_le

/-! ## Ranking-resolver lemmas -/

/-- C8: a `found=false` record coming out of `get_core_ranking` is
exactly the all-sentinel default (`rank="Unranked"`, every other text
field `"N/A"`) — never a mix of populated and sentinel fields — and both
a search reporting `"0 Results found."` (or yielding no data rows) and
any transport/timeout failure return that all-sentinel `found=false`
record instead of propagating an error. -/
theorem core_ranking_notfound_sentinel (portal : PortalOutcome)
    (conference_name text : String) (rows : List CoreRow) :
    ((get_core_ranking conference_name portal).found = false →
      get_core_ranking conference_name portal = coreDefault)
    ∧ get_core_ranking conference_name .failure = coreDefault
    ∧ get_core_ranking conference_name (.table text []) = coreDefault
    ∧ (containsSub "0 Results found." text = true →
        get_core_ranking conference_name (.table text rows) = coreDefault) := by
  refine ⟨?_, rfl, ?_, ?_⟩
  · intro hf
    cases portal with
    | failure => rfl
    | table t rs =>
      by_cases hc : containsSub "0 Results found." t
      · simp [get_core_ranking, hc]
      · cases rs with
        | nil => simp [get_core_ranking, hc]
        | cons first rest =>
          by_cases h9 : 9 ≤ first.tds.length
          · rw [get_core_ranking] at hf
            simp [hc, h9] at hf
          · simp [get_core_ranking, hc, h9]
  · by_cases hc : containsSub "0 Results found." text
    · simp [get_core_ranking, hc]
    · simp [get_core_ranking, hc]
  · intro hc
    simp [get_core_ranking, hc]

/-- Witness for `core_ranking_notfound_sentinel`: a results page whose
table text reports `"0 Results found."` yields the all-sentinel
`found=false` record even though a (stray) data row is present. -/
theorem core_ranking_notfound_sentinel_witness :
    get_core_ranking "AAAI" (.table "0 Results found."
        [⟨["t", "a", "s", "A*", "n", "d", "p", "c", "4.2"], some "http://dblp"⟩])
      = coreDefault :=
  (core_ranking_notfound_sentinel (.table "0 Results found."
        [⟨["t", "a", "s", "A*", "n", "d", "p", "c", "4.2"], some "http://dblp"⟩])
      "AAAI" "0 Results found."
      [⟨["t", "a", "s", "A*", "n", "d", "p", "c", "4.2"], some "http://dblp"⟩]).2.2.2
    (by decide)

/-! ## Detail-scraper lemmas -/

/-- C9 counterexample: when navigation to the detail page raises (for
example a timeout), `scrape_event_details` returns a dictionary holding
ONLY the `error` key — `details` starts empty and the `except` branch
adds just `error` — so `page_title` and the other eight fields are
silently absent, contradicting the claim that all fields are present. -/
theorem scrape_failure_drops_keys_cx :
    scrape_event_details (.failure "timeout") = [("error", .str "timeout")]
    ∧ dictGet? (scrape_event_details (.failure "timeout")) "page_title" = none :=
  ⟨rfl, rfl⟩

/-- C9 (amended): on a successful fetch the returned attribute set
contains every one of the nine fields, in insertion order, each at its
explicit absent-marker when its own extraction found nothing (shown here
for the detailed deadline's regular expression and the minimum-pages
capture); but on an unexpected failure the returned set carries ONLY the
`error` field — the per-page fields are dropped, and only this record's
enrichment is affected. -/
theorem scrape_details_fields (d : PageData) (msg : String) :
    (scrape_event_details (.page d)).map Prod.fst
      = ["page_title", "meta_description", "detailed_deadline", "review_time",
         "conference_rank", "is_workshop", "minimum_pages", "website_link", "categories"]
    ∧ dictGet? (scrape_event_details (.page d)) "detailed_deadline"
        = some (.str ((d.deadline_match.map String.trim).getD "N/A"))
    ∧ dictGet? (scrape_event_details (.page d)) "minimum_pages"
        = some (match d.pages_match with
            | some n => .nat n
            | none => .str "N/A")
    ∧ scrape_event_details (.failure msg) = [("error", .str msg)] := by
  refine ⟨rfl, ?_, ?_, rfl⟩
  · simp [scrape_event_details, dictGet?]
  · simp [scrape_event_details, dictGet?]

/-! ## Output-phase lemmas -/

theorem detailsLoop_length (fetch : String → DetailPage) (evs : List EventData) :
    (detailsLoop fetch evs).length
      = (evs.filter (fun x => decide (x.link ≠ "" ∧ x.link ≠ "N/A"))).length := by
  induction evs with
  | nil => rfl
  | cons e rest ih =>
    by_cases h : e.link ≠ "" ∧ e.link ≠ "N/A"
    · simp [detailsLoop, List.filter, h, ih]
    · simp [detailsLoop, List.filter, h, ih]

/-- C10: a record whose `link` is empty or the `"N/A"` marker is
excluded from the detail-enrichment pass and from the persisted output
entirely — removing such a record from the input leaves the output
unchanged, and the output has exactly one entry per record whose link
was present. -/
theorem output_requires_link (fetch : String → DetailPage)
    (pre post : List EventData) (e : EventData)
    (h : e.link = "" ∨ e.link = "N/A") :
    detailsLoop fetch (pre ++ e :: post) = detailsLoop fetch (pre ++ post)
    ∧ (detailsLoop fetch (pre ++ e :: post)).length
      = ((pre ++ e :: post).filter (fun x => decide (x.link ≠ "" ∧ x.link ≠ "N/A"))).length := by
  have hcond : ¬ (e.link ≠ "" ∧ e.link ≠ "N/A") := by
    rcases h with h | h
    · exact fun hh => hh.1 h
    · exact fun hh => hh.2 h
  refine ⟨?_, detailsLoop_length fetch _⟩
  induction pre with
  | nil => simp [detailsLoop, hcond]
  | cons p pre' ih =>
    by_cases hp : p.link ≠ "" ∧ p.link ≠ "N/A"
    · simp [detailsLoop, hp, ih]
    · simp [detailsLoop, hp, ih]

/-- Witness for `output_requires_link`: a single record with
`link = "N/A"` produces an empty persisted collection. -/
theorem output_requires_link_witness :
    detailsLoop (fun _ => .failure "x")
        ([] ++ (⟨"SomeConf", "desc", "N/A", "w", "p", "d"⟩ : EventData) :: [])
      = detailsLoop (fun _ => .failure "x") ([] ++ [])
    ∧ (detailsLoop (fun _ => .failure "x")
        ([] ++ (⟨"SomeConf", "desc", "N/A", "w", "p", "d"⟩ : EventData) :: [])).length
      = (([] ++ (⟨"SomeConf", "desc", "N/A", "w", "p", "d"⟩ : EventData) :: []).filter
          (fun (x : EventData) => decide (x.link ≠ "" ∧ x.link ≠ "N/A"))).length :=
  output_requires_link (fun _ => .failure "x") [] []
    ⟨"SomeConf", "desc", "N/A", "w", "p", "d"⟩ (Or.inr rfl)
